import Mathlib

/-!
Verification of `src/contracts/models/communities-alt-version.ts` from the
`Socialcap-app/socialcap-lib` repository: the `_Community_` data model, its
JSON (de)serialization, the coercion helpers `asCircuitString`, `asPublicKey`,
`asField`, `asArray`, and the commitment `hash`.

The file first embeds the snarkyjs framework primitives the source calls into
(field elements as naturals modulo the field order, the decimal and base58
string codecs, bounded circuit strings, the Poseidon hash taken as an
arbitrary function parameter), then the source file's own definitions, and
finally proves the claims about them.
-/

set_option maxRecDepth 8192

namespace Socialcap

/-! ## Positional numeral machinery

Used to model the decimal string codec of snarkyjs `Field` and the base58
codec of snarkyjs `PublicKey`. -/

/-- Little-endian digits of `n` in base `b`, with explicit fuel so that the
definition reduces by `rfl`/`decide` on closed inputs. -/
def digitsFuel (b : Nat) : Nat → Nat → List Nat
  | _, 0 => []
  | 0, _ + 1 => []
  | f + 1, n + 1 => (n + 1) % b :: digitsFuel b f ((n + 1) / b)

/-- Little-endian digits of `n` in base `b` (fuel `n` always suffices). -/
def digitsBase (b n : Nat) : List Nat := digitsFuel b n n

/-- Value of a little-endian digit list in base `b`. -/
def ofDigitsLSB (b : Nat) : List Nat → Nat
  | [] => 0
  | d :: ds => d + b * ofDigitsLSB b ds

/-- Index of a character in an alphabet, `none` when absent. -/
def lookupIdx (alph : List Char) (c : Char) : Option Nat :=
  match alph with
  | [] => none
  | a :: rest => if a = c then some 0 else (lookupIdx rest c).map (· + 1)

/-- Render `n` in the positional system of `alph` (most significant first,
zero rendered as the single zero digit). -/
def renderBase (alph : List Char) (n : Nat) : List Char :=
  if n = 0 then [alph.getD 0 ' ']
  else (digitsBase alph.length n).reverse.map (fun d => alph.getD d ' ')

/-- Parse accumulator for `parseBase`. -/
def parseBaseAux (alph : List Char) : Nat → List Char → Option Nat
  | acc, [] => some acc
  | acc, c :: rest =>
    match lookupIdx alph c with
    | none => none
    | some d => parseBaseAux alph (acc * alph.length + d) rest

/-- Parse a (nonempty) numeral in the positional system of `alph`. -/
def parseBase (alph : List Char) (cs : List Char) : Option Nat :=
  match cs with
  | [] => none
  | _ :: _ => parseBaseAux alph 0 cs

/-! ## Models of the snarkyjs framework primitives

The source file depends on the external snarkyjs proving framework (`Field`,
`PublicKey`, `CircuitString`, `Poseidon`); per the spec these semantics are not
implemented by the repository, so they are embedded here as executable models
of the interfaces the source calls. -/

/-- Order of the base field used by the framework (the Pasta curve prime). -/
def pPallas : Nat :=
  28948022309329048855892746252171976963363056481941560715954676764349967630337

/-- The decimal alphabet. -/
def decimalAlphabet : List Char :=
  ['0', '1', '2', '3', '4', '5', '6', '7', '8', '9']

/-- The base58 alphabet (no `0`, `O`, `I`, `l`). -/
def base58Alphabet : List Char :=
  ['1', '2', '3', '4', '5', '6', '7', '8', '9',
   'A', 'B', 'C', 'D', 'E', 'F', 'G', 'H', 'J', 'K', 'L', 'M', 'N',
   'P', 'Q', 'R', 'S', 'T', 'U', 'V', 'W', 'X', 'Y', 'Z',
   'a', 'b', 'c', 'd', 'e', 'f', 'g', 'h', 'i', 'j', 'k', 'm', 'n',
   'o', 'p', 'q', 'r', 's', 't', 'u', 'v', 'w', 'x', 'y', 'z']

/-- Model of the snarkyjs `Field(s : string)` conversion: a canonical
non-negative decimal numeral, reduced modulo the field order; any other
string is a parse failure (the framework throws). -/
def fieldOfString (s : String) : Option Nat :=
  (parseBase decimalAlphabet s.data).map (· % pPallas)

/-- Model of snarkyjs `Field.prototype.toString`: canonical decimal. -/
def fieldToString (v : Nat) : String :=
  ⟨renderBase decimalAlphabet v⟩

/-- Model of snarkyjs `Field.prototype.toFields`: the singleton list. -/
def fieldToFields (v : Nat) : List Nat := [v]

/-- Model of a snarkyjs `PublicKey`: a field element and a parity bit. -/
structure PublicKey where
  x : Nat
  po : Bool
deriving DecidableEq, Repr

/-- Model of `PublicKey.empty()`. -/
def PublicKey.empty : PublicKey := ⟨0, false⟩

/-- Model of `PublicKey.prototype.toBase58`: a `B62q` tag followed by the
base58 rendering of the packed key data. -/
def PublicKey.toBase58 (k : PublicKey) : String :=
  ⟨'B' :: '6' :: '2' :: 'q' :: renderBase base58Alphabet (2 * k.x + cond k.po 1 0)⟩

/-- Model of `PublicKey.fromBase58`: inverse of the above, failing on any
string that is not a tagged base58 numeral (the framework throws). -/
def PublicKey.fromBase58 (s : String) : Option PublicKey :=
  match s.data with
  | 'B' :: '6' :: '2' :: 'q' :: rest =>
    (parseBase base58Alphabet rest).map (fun v => ⟨v / 2, v % 2 == 1⟩)
  | _ => none

/-- Model of `PublicKey.prototype.toFields`: the point data as field elements. -/
def PublicKey.toFields (k : PublicKey) : List Nat :=
  [k.x, cond k.po 1 0]

/-- Model of a snarkyjs `CircuitString`: the list of character codes, padded
with nulls to the fixed length `maxLength`. -/
abbrev CircuitString := List Nat

/-- snarkyjs `CircuitString.maxLength`. -/
def CircuitString.maxLength : Nat := 128

/-- Model of `CircuitString.fromString`: character codes padded with nulls.
(The framework throws beyond `maxLength`; every call site in the source
passes a string of at most `maxLength - 1` characters or a short literal.) -/
def CircuitString.fromString (s : String) : CircuitString :=
  s.data.map Char.toNat ++ List.replicate (CircuitString.maxLength - s.length) 0

/-- Model of `CircuitString.prototype.toString`: drop the null characters and
convert the codes back to text. -/
def CircuitString.toText (cs : CircuitString) : String :=
  ⟨(cs.filter (fun v => v != 0)).map Char.ofNat⟩

/-- Model of `CircuitString.prototype.toFields`: the character codes are the
field elements. -/
def CircuitString.toFields (cs : CircuitString) : List Nat := cs

/-- Modelled from the spec: the repository's `UTCDateTime` helper
(`src/contracts/helpers/datetime.ts`) is imported by the source file but its
code is not among the provided sources. The spec describes it as "a
UTC-datetime helper for converting a numeric timestamp field to and from
display text" (§6) and requires `toJSON(fromJSON(x)).field === x.field` for
the timestamp fields (§8), so `UTCDateTime.fromField(f).toString()` is
modelled as the canonical decimal rendering of the numeric field value. -/
def UTCDateTime.fromField (v : Nat) : Nat := v

/-- Modelled from the spec: display text of a `UTCDateTime` (see
`UTCDateTime.fromField`). -/
def UTCDateTime.toText (v : Nat) : String := fieldToString v

/-! ## The source file's definitions

Embedding of `src/contracts/models/communities-alt-version.ts`. JavaScript
exceptions are modelled with `Except JsError`; a JSON value that may be
`undefined` is an `Option`. -/

/-- A JavaScript runtime failure surfacing from the source file: the
`TypeError` raised by reading a property of `undefined`, or a parse failure
thrown by a framework conversion. -/
inductive JsError
  | typeError
  | parseError
deriving DecidableEq, Repr

/-- The input JSON shape accepted by `fromJSON` (source lines 63-77). Absent
optional fields are `none`. -/
structure CommunityJson where
  uid : String
  fullName : Option String := none
  description : Option String := none
  accountId : Option String := none
  state : Option String := none
  createdUTC : Option String := none
  approvedUTC : Option String := none
  updatedUTC : Option String := none
  validators : Option (List String) := none
  auditors : Option (List String) := none
  admins : Option (List String) := none
  plans : Option (List String) := none
deriving DecidableEq, Repr

/-- The plain JSON object produced by `toJSON` (source lines 92-107). -/
structure CommunityJsonOut where
  uid : String
  accountId : String
  fullName : String
  description : String
  state : String
  approvedUTC : String
  createdUTC : String
  updatedUTC : String
  admins : List String
  validators : List String
  auditors : List String
  plans : List String
deriving DecidableEq, Repr

/-- Embedding of `asCircuitString` (source lines 126-131): `undefined` keeps
the default, otherwise the text is truncated with
`substring(0, CircuitString.maxLength-1)` and converted. This conversion
never fails. -/
def asCircuitString (s : Option String) (defaulted : CircuitString) :
    CircuitString :=
  match s with
  | none => defaulted
  | some str =>
    CircuitString.fromString ⟨str.data.take (CircuitString.maxLength - 1)⟩

/-- Embedding of `asPublicKey` (source lines 133-137): `undefined` keeps the
default (or the empty key when the default is also `undefined`, mirroring the
source's `|| PublicKey.empty()`); otherwise the base58 string must parse. -/
def asPublicKey (s : Option String) (defaulted : Option PublicKey) :
    Except JsError PublicKey :=
  match s with
  | none => .ok (defaulted.getD PublicKey.empty)
  | some str =>
    match PublicKey.fromBase58 str with
    | some k => .ok k
    | none => .error .parseError

/-- Embedding of `asField` (source lines 139-143): `undefined` keeps the
default; otherwise the numeric string must parse. -/
def asField (s : Option String) (defaulted : Nat) : Except JsError Nat :=
  match s with
  | none => .ok defaulted
  | some str =>
    match fieldOfString str with
    | some v => .ok v
    | none => .error .parseError

/-- The element-wise conversion of `asArray`'s `s.map(t => Field(t))`
(source line 148): the first unparsable entry aborts with the framework's
parse failure. -/
def fieldList : List String → Except JsError (List Nat)
  | [] => .ok []
  | t :: rest =>
    match fieldOfString t with
    | none => .error .parseError
    | some v => (fieldList rest).map (fun l => v :: l)

/-- Embedding of `asArray` (source lines 145-149): `undefined` keeps the
default; otherwise every entry must parse as a field element. -/
def asArray (s : Option (List String)) (defaulted : List Nat) :
    Except JsError (List Nat) :=
  match s with
  | none => .ok defaulted
  | some l => fieldList l

/-- The `_Community_` struct (source lines 40-51): a `Struct({ uid: Field })`
with additional instance fields. -/
structure _Community_ where
  uid : Nat
  accountId : PublicKey
  fullName : CircuitString
  description : CircuitString
  state : CircuitString
  createdUTC : Nat
  updatedUTC : Nat
  approvedUTC : Nat
  admins : List Nat
  validators : List Nat
  auditors : List Nat
  plans : List Nat
deriving DecidableEq, Repr

/-- The class-level field initializers of `_Community_` (source lines 40-51):
the state of a fresh instance before `fromJSON` runs. -/
def communityInit : _Community_ :=
  { uid := 0
    accountId := PublicKey.empty
    fullName := CircuitString.fromString "?"
    description := CircuitString.fromString ""
    state := CircuitString.fromString "INITIAL"
    createdUTC := 0
    updatedUTC := 0
    approvedUTC := 0
    admins := []
    validators := []
    auditors := []
    plans := [] }

/-- Embedding of `_Community_.prototype.fromJSON` (source lines 63-90).
`fromJSON(undefined)` — as happens in the argumentless constructor — throws a
`TypeError` at `json.uid`. The assignments run in source order; the two
consecutive `this.createdUTC = asField(...)` stores of lines 83-84 appear as
`createdUTC0` (from `json.createdUTC`) being overwritten by the parse of
`json.updatedUTC`. The three `asCircuitString` coercions are total, so they
sit directly in the result record. -/
def _Community_.fromJSON (self : _Community_) (json : Option CommunityJson) :
    Except JsError _Community_ :=
  match json with
  | none => .error .typeError
  | some j =>
    match fieldOfString j.uid with
    | none => .error .parseError
    | some uid =>
      match asPublicKey j.accountId (some self.accountId) with
      | .error e => .error e
      | .ok accountId =>
        match asField j.approvedUTC self.approvedUTC with
        | .error e => .error e
        | .ok approvedUTC =>
          match asField j.createdUTC self.createdUTC with
          | .error e => .error e
          | .ok createdUTC0 =>
            match asField j.updatedUTC createdUTC0 with
            | .error e => .error e
            | .ok createdUTC =>
              match asArray j.admins self.admins with
              | .error e => .error e
              | .ok admins =>
                match asArray j.validators self.validators with
                | .error e => .error e
                | .ok validators =>
                  match asArray j.auditors self.auditors with
                  | .error e => .error e
                  | .ok auditors =>
                    match asArray j.plans self.plans with
                    | .error e => .error e
                    | .ok plans =>
                      .ok { uid := uid
                            accountId := accountId
                            fullName := asCircuitString j.fullName self.fullName
                            description :=
                              asCircuitString j.description self.description
                            state := asCircuitString j.state self.state
                            createdUTC := createdUTC
                            updatedUTC := self.updatedUTC
                            approvedUTC := approvedUTC
                            admins := admins
                            validators := validators
                            auditors := auditors
                            plans := plans }

/-- Embedding of `_Community_.prototype.toJSON` (source lines 92-107). The
`this.accountId || PublicKey.empty()` guard is a no-op here because the
embedded field is never `undefined`. -/
def _Community_.toJSON (c : _Community_) : CommunityJsonOut :=
  { uid := fieldToString c.uid
    accountId := PublicKey.toBase58 c.accountId
    fullName := CircuitString.toText c.fullName
    description := CircuitString.toText c.description
    state := CircuitString.toText c.state
    approvedUTC := UTCDateTime.toText (UTCDateTime.fromField c.approvedUTC)
    createdUTC := UTCDateTime.toText (UTCDateTime.fromField c.createdUTC)
    updatedUTC := UTCDateTime.toText (UTCDateTime.fromField c.updatedUTC)
    admins := c.admins.map fieldToString
    validators := c.validators.map fieldToString
    auditors := c.auditors.map fieldToString
    plans := c.plans.map fieldToString }

/-- Embedding of `_Community_.prototype.hash` (source lines 109-123): the
successive `concat` calls, passed to the Poseidon sponge, which is taken as
an arbitrary function `poseidon`. -/
def _Community_.hash (c : _Community_) (poseidon : List Nat → Nat) : Nat :=
  poseidon
    (((((((((([] ++ fieldToFields c.uid)
      ++ PublicKey.toFields c.accountId)
      ++ CircuitString.toFields c.fullName)
      ++ CircuitString.toFields c.description)
      ++ CircuitString.toFields c.state)
      ++ [c.approvedUTC, c.createdUTC, c.updatedUTC])
      ++ c.admins)
      ++ c.validators)
      ++ c.auditors)
      ++ c.plans)

/-- The spec's declared flattening order for the commitment hash: "uid,
accountId, fullName, description, state, approvedUTC, createdUTC, updatedUTC,
admins, validators, auditors, plans" as one ordered sequence of primitive
field elements. -/
def declaredFieldOrder (c : _Community_) : List Nat :=
  fieldToFields c.uid
    ++ PublicKey.toFields c.accountId
    ++ CircuitString.toFields c.fullName
    ++ CircuitString.toFields c.description
    ++ CircuitString.toFields c.state
    ++ [c.approvedUTC, c.createdUTC, c.updatedUTC]
    ++ c.admins
    ++ c.validators
    ++ c.auditors
    ++ c.plans

/-- Embedding of `new _Community_(json)` (source lines 58-61): the field
initializers run, then the constructor body calls `this.fromJSON(json)`. -/
def new_Community_ (json : Option CommunityJson) : Except JsError _Community_ :=
  _Community_.fromJSON communityInit json

/-- Embedding of the exported factory (source line 37):
`(params) => new _Community_().fromJSON(params)` — the constructor runs with
`json` undefined. -/
def Community (params : CommunityJson) : Except JsError _Community_ :=
  match new_Community_ none with
  | .error e => .error e
  | .ok self => self.fromJSON (some params)

/-! ## Well-formedness predicates used in the claim statements -/

/-- A JavaScript string with no embedded null characters (the padding
character of `CircuitString`). -/
def plainText (s : String) : Prop := ∀ ch ∈ s.data, ch.toNat ≠ 0

instance (s : String) : Decidable (plainText s) := by
  unfold plainText; infer_instance

/-- A string that is the canonical decimal rendering of a field value. -/
def canonFieldStr (s : String) : Prop :=
  ∃ n, n < pPallas ∧ s = fieldToString n

/-- A string that is the base58 rendering of a public key. -/
def canonKeyStr (s : String) : Prop :=
  ∃ k : PublicKey, s = PublicKey.toBase58 k

/-- Re-reading a serialized Community: the output JSON, with every field
present, as an input JSON. -/
def CommunityJsonOut.toInput (o : CommunityJsonOut) : CommunityJson :=
  { uid := o.uid
    fullName := some o.fullName
    description := some o.description
    accountId := some o.accountId
    state := some o.state
    createdUTC := some o.createdUTC
    approvedUTC := some o.approvedUTC
    updatedUTC := some o.updatedUTC
    validators := some o.validators
    auditors := some o.auditors
    admins := some o.admins
    plans := some o.plans }

/-! ## Concrete instances used by witnesses -/

/-- A concrete input JSON carrying both timestamp fields. -/
def c2Json : CommunityJson :=
  { uid := "1", fullName := some "ab", createdUTC := some "5",
    updatedUTC := some "7", admins := some ["2"] }

/-- The Community built by `new _Community_(c2Json)`. -/
def c2Out : _Community_ :=
  { communityInit with
    uid := 1,
    fullName := CircuitString.fromString "ab",
    createdUTC := 7,
    admins := [2] }

/-- A concrete input JSON carrying only `uid` and `updatedUTC`. -/
def c3Json : CommunityJson := { uid := "1", updatedUTC := some "7" }

/-- The Community built by `new _Community_(c3Json)`. -/
def c3Out : _Community_ := { communityInit with uid := 1, createdUTC := 7 }

/-- The spec's example input `{uid: "1", admins: ["2","3"]}`. -/
def c9JsonA : CommunityJson := { uid := "1", admins := some ["2", "3"] }

/-- The spec's example input with the admins list reversed. -/
def c9JsonB : CommunityJson := { uid := "1", admins := some ["3", "2"] }

/-- The Community built by `new _Community_(c9JsonA)`. -/
def c9OutA : _Community_ := { communityInit with uid := 1, admins := [2, 3] }

/-- The Community built by `new _Community_(c9JsonB)`. -/
def c9OutB : _Community_ := { communityInit with uid := 1, admins := [3, 2] }

/-- The Community described by the spec for an input holding only a `uid`:
every non-uid field carries its declared default. -/
def onlyUidCommunity (v : Nat) : _Community_ :=
  { uid := v
    accountId := PublicKey.empty
    fullName := CircuitString.fromString "?"
    description := CircuitString.fromString ""
    state := CircuitString.fromString "INITIAL"
    createdUTC := 0
    updatedUTC := 0
    approvedUTC := 0
    admins := []
    validators := []
    auditors := []
    plans := [] }

/-! ## Theorems -/

theorem digitsFuel_congr (b : Nat) (hb : 2 ≤ b) :
    ∀ n f f', n ≤ f → n ≤ f' → digitsFuel b f n = digitsFuel b f' n := by
  intro n
  induction n using Nat.strong_induction_on with
  | _ n ih =>
    intro f f' hf hf'
    cases n with
    | zero => cases f <;> cases f' <;> rfl
    | succ m =>
      obtain ⟨f0, rfl⟩ : ∃ f0, f = f0 + 1 := ⟨f - 1, by omega⟩
      obtain ⟨f1, rfl⟩ : ∃ f1, f' = f1 + 1 := ⟨f' - 1, by omega⟩
      simp only [digitsFuel]
      have hdiv : (m + 1) / b ≤ m := by
        have h1 := Nat.div_lt_self (show 0 < m + 1 by omega) (show 1 < b by omega)
        omega
      rw [ih ((m + 1) / b) (by omega) f0 f1 (by omega) (by omega)]

theorem digitsBase_succ (b n : Nat) (hb : 2 ≤ b) (hn : 0 < n) :
    digitsBase b n = n % b :: digitsBase b (n / b) := by
  obtain ⟨m, rfl⟩ : ∃ m, n = m + 1 := ⟨n - 1, by omega⟩
  show digitsFuel b (m + 1) (m + 1) = _
  simp only [digitsFuel]
  congr 1
  have hdiv : (m + 1) / b ≤ m := by
    have h1 := Nat.div_lt_self (show 0 < m + 1 by omega) (show 1 < b by omega)
    omega
  exact digitsFuel_congr b hb ((m + 1) / b) m ((m + 1) / b) hdiv (le_refl _)

theorem ofDigitsLSB_digitsBase (b : Nat) (hb : 2 ≤ b) :
    ∀ n, ofDigitsLSB b (digitsBase b n) = n := by
  intro n
  induction n using Nat.strong_induction_on with
  | _ n ih =>
    rcases Nat.eq_zero_or_pos n with h | h
    · subst h; rfl
    · rw [digitsBase_succ b n hb h, ofDigitsLSB,
        ih (n / b) (Nat.div_lt_self h (by omega))]
      exact Nat.mod_add_div n b

theorem digitsBase_lt (b : Nat) (hb : 2 ≤ b) :
    ∀ n, ∀ d ∈ digitsBase b n, d < b := by
  intro n
  induction n using Nat.strong_induction_on with
  | _ n ih =>
    rcases Nat.eq_zero_or_pos n with h | h
    · subst h; intro d hd; simp [digitsBase, digitsFuel] at hd
    · rw [digitsBase_succ b n hb h]
      intro d hd
      rcases List.mem_cons.mp hd with h1 | h1
      · subst h1; exact Nat.mod_lt n (by omega)
      · exact ih (n / b) (Nat.div_lt_self h (by omega)) d h1

theorem digitsBase_ne_nil (b n : Nat) (hb : 2 ≤ b) (hn : 0 < n) :
    digitsBase b n ≠ [] := by
  rw [digitsBase_succ b n hb hn]; simp

theorem lookupIdx_getD (alph : List Char) (hnd : alph.Nodup) :
    ∀ d, d < alph.length → lookupIdx alph (alph.getD d ' ') = some d := by
  induction alph with
  | nil => intro d hd; simp at hd
  | cons a rest ih =>
    intro d hd
    cases d with
    | zero => simp [lookupIdx]
    | succ k =>
      have hk : k < rest.length := by simpa using hd
      have hmem : rest.getD k ' ' ∈ rest := by
        rw [List.getD_eq_getElem rest ' ' hk]
        exact List.getElem_mem hk
      have hne : a ≠ (a :: rest).getD (k + 1) ' ' := by
        rw [List.getD_cons_succ]
        intro he
        exact (List.nodup_cons.mp hnd).1 (he ▸ hmem)
      rw [lookupIdx, if_neg hne, List.getD_cons_succ,
        ih (List.nodup_cons.mp hnd).2 k hk]
      rfl

theorem parseBaseAux_map_getD (alph : List Char) (hnd : alph.Nodup) :
    ∀ (ds : List Nat) (acc : Nat), (∀ d ∈ ds, d < alph.length) →
      parseBaseAux alph acc (ds.map (fun d => alph.getD d ' ')) =
        some (ds.foldl (fun a d => a * alph.length + d) acc) := by
  intro ds
  induction ds with
  | nil => intro acc _; rfl
  | cons d rest ih =>
    intro acc hlt
    rw [List.map_cons, parseBaseAux,
      lookupIdx_getD alph hnd d (hlt d (List.mem_cons_self d rest))]
    exact ih _ (fun x hx => hlt x (List.mem_cons_of_mem d hx))

theorem foldl_reverse_ofDigitsLSB (b : Nat) :
    ∀ (ds : List Nat) (acc : Nat),
      (ds.reverse).foldl (fun a d => a * b + d) acc =
        acc * b ^ ds.length + ofDigitsLSB b ds := by
  intro ds
  induction ds with
  | nil => intro acc; simp [ofDigitsLSB]
  | cons d rest ih =>
    intro acc
    simp only [List.reverse_cons, List.foldl_append, ih, List.foldl_cons,
      List.foldl_nil, ofDigitsLSB, List.length_cons]
    ring

theorem parseBase_of_ne_nil (alph : List Char) (cs : List Char) (h : cs ≠ []) :
    parseBase alph cs = parseBaseAux alph 0 cs := by
  cases cs with
  | nil => exact absurd rfl h
  | cons c cs' => rfl

theorem parseBase_renderBase (alph : List Char) (hnd : alph.Nodup)
    (hb : 2 ≤ alph.length) (n : Nat) :
    parseBase alph (renderBase alph n) = some n := by
  rcases Nat.eq_zero_or_pos n with hn | hn
  · subst hn
    have h0 : lookupIdx alph (alph.getD 0 ' ') = some 0 :=
      lookupIdx_getD alph hnd 0 (by omega)
    rw [renderBase, if_pos rfl, parseBase_of_ne_nil _ _ (by simp)]
    simp only [parseBaseAux, h0]
    simp [parseBaseAux]
  · rw [renderBase, if_neg (Nat.pos_iff_ne_zero.mp hn)]
    have hne : digitsBase alph.length n ≠ [] := digitsBase_ne_nil _ _ hb hn
    have hmapne : (digitsBase alph.length n).reverse.map
        (fun d => alph.getD d ' ') ≠ [] := by
      simp [hne]
    have hdig : ∀ d ∈ (digitsBase alph.length n).reverse, d < alph.length := by
      intro d hd
      exact digitsBase_lt alph.length hb n d (List.mem_reverse.mp hd)
    rw [parseBase_of_ne_nil _ _ hmapne,
      parseBaseAux_map_getD alph hnd _ 0 hdig,
      foldl_reverse_ofDigitsLSB alph.length (digitsBase alph.length n) 0,
      ofDigitsLSB_digitsBase alph.length hb n]
    simp

theorem fieldOfString_lt {s : String} {v : Nat}
    (h : fieldOfString s = some v) : v < pPallas := by
  rcases Option.map_eq_some'.mp h with ⟨w, _, rfl⟩
  exact Nat.mod_lt w (by decide)

theorem fieldOfString_fieldToString (v : Nat) (hv : v < pPallas) :
    fieldOfString (fieldToString v) = some v := by
  show (parseBase decimalAlphabet (String.data ⟨renderBase decimalAlphabet v⟩)).map
    (· % pPallas) = some v
  rw [show String.data ⟨renderBase decimalAlphabet v⟩ = renderBase decimalAlphabet v
    from rfl]
  rw [parseBase_renderBase decimalAlphabet (by decide) (by decide) v]
  simp [Nat.mod_eq_of_lt hv]

theorem base58Alphabet_nodup : base58Alphabet.Nodup := by decide

theorem PublicKey.fromBase58_toBase58 (k : PublicKey) :
    PublicKey.fromBase58 (PublicKey.toBase58 k) = some k := by
  show (parseBase base58Alphabet
    (renderBase base58Alphabet (2 * k.x + cond k.po 1 0))).map
      (fun v => (⟨v / 2, v % 2 == 1⟩ : PublicKey)) = some k
  rw [parseBase_renderBase base58Alphabet base58Alphabet_nodup (by decide)]
  cases k with
  | mk x po =>
    cases po <;>
      simp only [cond_true, cond_false, Option.map_some', Option.some.injEq,
        PublicKey.mk.injEq, Nat.add_zero] <;>
      refine ⟨by omega, ?_⟩ <;>
      simp [Nat.mul_add_mod, Nat.mul_mod_right]

/-! ## Helper lemmas -/

theorem filter_ne_zero_replicate (k : Nat) :
    (List.replicate k 0).filter (fun v => v != 0) = [] := by
  induction k with
  | zero => rfl
  | succ m ih => simp [List.replicate_succ, List.filter_cons, ih]

theorem toText_fromString (s : String) (hp : plainText s) :
    CircuitString.toText (CircuitString.fromString s) = s := by
  unfold CircuitString.toText CircuitString.fromString
  rw [List.filter_append, filter_ne_zero_replicate, List.append_nil]
  have hfilter : (s.data.map Char.toNat).filter (fun v => v != 0) =
      s.data.map Char.toNat := by
    rw [List.filter_eq_self]
    intro a ha
    rcases List.mem_map.mp ha with ⟨ch, hch, rfl⟩
    simpa using hp ch hch
  rw [hfilter, List.map_map]
  have hid : s.data.map (Char.ofNat ∘ Char.toNat) = s.data := by
    have h1 : ∀ a ∈ s.data, (Char.ofNat ∘ Char.toNat) a = id a :=
      fun a _ => Char.ofNat_toNat a
    rw [List.map_congr_left h1, List.map_id]
  rw [hid]

theorem asField_ok_lt {so : Option String} {d v : Nat} (hd : d < pPallas)
    (h : asField so d = .ok v) : v < pPallas := by
  cases so with
  | none =>
    simp only [asField] at h
    cases h
    exact hd
  | some str =>
    simp only [asField] at h
    cases hf : fieldOfString str with
    | none => rw [hf] at h; cases h
    | some w =>
      rw [hf] at h
      cases h
      exact fieldOfString_lt hf

theorem fieldList_ok_lt : ∀ {l : List String} {vs : List Nat},
    fieldList l = .ok vs → ∀ v ∈ vs, v < pPallas := by
  intro l
  induction l with
  | nil =>
    intro vs h v hv
    simp only [fieldList] at h
    cases h
    cases hv
  | cons t rest ih =>
    intro vs h v hv
    simp only [fieldList] at h
    cases hf : fieldOfString t with
    | none => rw [hf] at h; cases h
    | some w =>
      rw [hf] at h
      cases hrest : fieldList rest with
      | error e => rw [hrest] at h; cases h
      | ok ws =>
        rw [hrest] at h
        simp only [Except.map] at h
        cases h
        rcases List.mem_cons.mp hv with h1 | h1
        · subst h1; exact fieldOfString_lt hf
        · exact ih hrest v h1

theorem asArray_ok_lt {so : Option (List String)} {d vs : List Nat}
    (hd : ∀ v ∈ d, v < pPallas) (h : asArray so d = .ok vs) :
    ∀ v ∈ vs, v < pPallas := by
  cases so with
  | none =>
    simp only [asArray] at h
    cases h
    exact hd
  | some l =>
    simp only [asArray] at h
    exact fieldList_ok_lt h

theorem fieldList_map_render {vs : List Nat} (h : ∀ v ∈ vs, v < pPallas) :
    fieldList (vs.map fieldToString) = .ok vs := by
  induction vs with
  | nil => rfl
  | cons v rest ih =>
    simp only [List.map_cons, fieldList,
      fieldOfString_fieldToString v (h v (List.mem_cons_self v rest)),
      ih (fun w hw => h w (List.mem_cons_of_mem v hw))]
    rfl

theorem fieldList_canon : ∀ {l : List String} {vs : List Nat},
    fieldList l = .ok vs → (∀ s ∈ l, canonFieldStr s) →
    vs.map fieldToString = l := by
  intro l
  induction l with
  | nil =>
    intro vs h _
    simp only [fieldList] at h
    cases h
    rfl
  | cons t rest ih =>
    intro vs h hc
    simp only [fieldList] at h
    cases hf : fieldOfString t with
    | none => rw [hf] at h; cases h
    | some w =>
      rw [hf] at h
      cases hrest : fieldList rest with
      | error e => rw [hrest] at h; cases h
      | ok ws =>
        rw [hrest] at h
        simp only [Except.map] at h
        cases h
        rcases hc t (List.mem_cons_self t rest) with ⟨n, hn, ht⟩
        have hf2 : fieldOfString t = some n := by
          rw [ht]; exact fieldOfString_fieldToString n hn
        have hnw : n = w := by
          rw [hf] at hf2; exact (Option.some.inj hf2).symm
        rw [List.map_cons,
          ih hrest (fun s hs => hc s (List.mem_cons_of_mem t hs)), ← hnw, ← ht]

/-- Success characterization of `fromJSON` on a defined JSON input: every
fallible coercion succeeds, in source order, and the result record is built
from the parsed values, with `createdUTC` holding the parse of
`json.updatedUTC` when present and `updatedUTC` untouched. -/
theorem fromJSON_some_ok_iff (self : _Community_) (j : CommunityJson)
    (c : _Community_) :
    self.fromJSON (some j) = .ok c ↔
      ∃ (uid : Nat) (accountId : PublicKey)
        (approvedUTC createdUTC0 createdUTC : Nat)
        (admins validators auditors plans : List Nat),
        fieldOfString j.uid = some uid ∧
        asPublicKey j.accountId (some self.accountId) = .ok accountId ∧
        asField j.approvedUTC self.approvedUTC = .ok approvedUTC ∧
        asField j.createdUTC self.createdUTC = .ok createdUTC0 ∧
        asField j.updatedUTC createdUTC0 = .ok createdUTC ∧
        asArray j.admins self.admins = .ok admins ∧
        asArray j.validators self.validators = .ok validators ∧
        asArray j.auditors self.auditors = .ok auditors ∧
        asArray j.plans self.plans = .ok plans ∧
        c = { uid := uid
              accountId := accountId
              fullName := asCircuitString j.fullName self.fullName
              description := asCircuitString j.description self.description
              state := asCircuitString j.state self.state
              createdUTC := createdUTC
              updatedUTC := self.updatedUTC
              approvedUTC := approvedUTC
              admins := admins
              validators := validators
              auditors := auditors
              plans := plans } := by
  constructor
  · intro h
    simp only [_Community_.fromJSON] at h
    cases h1 : fieldOfString j.uid with
    | none => simp only [h1] at h; cases h
    | some uid =>
    simp only [h1] at h
    cases h2 : asPublicKey j.accountId (some self.accountId) with
    | error e => simp only [h2] at h; cases h
    | ok accountId =>
    simp only [h2] at h
    cases h3 : asField j.approvedUTC self.approvedUTC with
    | error e => simp only [h3] at h; cases h
    | ok approvedUTC =>
    simp only [h3] at h
    cases h4 : asField j.createdUTC self.createdUTC with
    | error e => simp only [h4] at h; cases h
    | ok createdUTC0 =>
    simp only [h4] at h
    cases h5 : asField j.updatedUTC createdUTC0 with
    | error e => simp only [h5] at h; cases h
    | ok createdUTC =>
    simp only [h5] at h
    cases h6 : asArray j.admins self.admins with
    | error e => simp only [h6] at h; cases h
    | ok admins =>
    simp only [h6] at h
    cases h7 : asArray j.validators self.validators with
    | error e => simp only [h7] at h; cases h
    | ok validators =>
    simp only [h7] at h
    cases h8 : asArray j.auditors self.auditors with
    | error e => simp only [h8] at h; cases h
    | ok auditors =>
    simp only [h8] at h
    cases h9 : asArray j.plans self.plans with
    | error e => simp only [h9] at h; cases h
    | ok plans =>
    simp only [h9] at h
    exact ⟨uid, accountId, approvedUTC, createdUTC0, createdUTC, admins,
      validators, auditors, plans, by simp [h1], by simp [h2], by simp [h3],
      by simp [h4], by simp [h5], by simp [h6], by simp [h7], by simp [h8],
      by simp [h9], (Except.ok.inj h).symm⟩
  · rintro ⟨uid, accountId, approvedUTC, createdUTC0, createdUTC, admins,
      validators, auditors, plans, h1, h2, h3, h4, h5, h6, h7, h8, h9, rfl⟩
    simp only [_Community_.fromJSON, h1, h2, h3, h4, h5, h6, h7, h8, h9]

theorem asPublicKey_err {s : Option String} {d : Option PublicKey}
    {e : JsError} (h : asPublicKey s d = .error e) : e = .parseError := by
  cases s with
  | none => simp only [asPublicKey] at h; cases h
  | some str =>
    simp only [asPublicKey] at h
    cases hp : PublicKey.fromBase58 str with
    | none => rw [hp] at h; cases h; rfl
    | some k => rw [hp] at h; cases h

theorem asField_err {s : Option String} {d : Nat} {e : JsError}
    (h : asField s d = .error e) : e = .parseError := by
  cases s with
  | none => simp only [asField] at h; cases h
  | some str =>
    simp only [asField] at h
    cases hp : fieldOfString str with
    | none => rw [hp] at h; cases h; rfl
    | some v => rw [hp] at h; cases h

theorem fieldList_err : ∀ {l : List String} {e : JsError},
    fieldList l = .error e → e = .parseError := by
  intro l
  induction l with
  | nil => intro e h; simp only [fieldList] at h; cases h
  | cons t rest ih =>
    intro e h
    simp only [fieldList] at h
    cases hf : fieldOfString t with
    | none => rw [hf] at h; cases h; rfl
    | some v =>
      rw [hf] at h
      cases hrest : fieldList rest with
      | error e' =>
        rw [hrest] at h
        simp only [Except.map] at h
        cases h
        exact ih hrest
      | ok ws => rw [hrest] at h; simp only [Except.map] at h; cases h

theorem asArray_err {s : Option (List String)} {d : List Nat} {e : JsError}
    (h : asArray s d = .error e) : e = .parseError := by
  cases s with
  | none => simp only [asArray] at h; cases h
  | some l =>
    simp only [asArray] at h
    exact fieldList_err h

/-- Every failure of `fromJSON` on a defined JSON input is a propagated
parse failure. -/
theorem fromJSON_some_err {self : _Community_} {j : CommunityJson}
    {e : JsError} (h : self.fromJSON (some j) = .error e) : e = .parseError := by
  simp only [_Community_.fromJSON] at h
  cases h1 : fieldOfString j.uid with
  | none => simp only [h1] at h; cases h; rfl
  | some uid =>
  simp only [h1] at h
  cases h2 : asPublicKey j.accountId (some self.accountId) with
  | error e' => simp only [h2] at h; cases h; exact asPublicKey_err h2
  | ok accountId =>
  simp only [h2] at h
  cases h3 : asField j.approvedUTC self.approvedUTC with
  | error e' => simp only [h3] at h; cases h; exact asField_err h3
  | ok approvedUTC =>
  simp only [h3] at h
  cases h4 : asField j.createdUTC self.createdUTC with
  | error e' => simp only [h4] at h; cases h; exact asField_err h4
  | ok createdUTC0 =>
  simp only [h4] at h
  cases h5 : asField j.updatedUTC createdUTC0 with
  | error e' => simp only [h5] at h; cases h; exact asField_err h5
  | ok createdUTC =>
  simp only [h5] at h
  cases h6 : asArray j.admins self.admins with
  | error e' => simp only [h6] at h; cases h; exact asArray_err h6
  | ok admins =>
  simp only [h6] at h
  cases h7 : asArray j.validators self.validators with
  | error e' => simp only [h7] at h; cases h; exact asArray_err h7
  | ok validators =>
  simp only [h7] at h
  cases h8 : asArray j.auditors self.auditors with
  | error e' => simp only [h8] at h; cases h; exact asArray_err h8
  | ok auditors =>
  simp only [h8] at h
  cases h9 : asArray j.plans self.plans with
  | error e' => simp only [h9] at h; cases h; exact asArray_err h9
  | ok plans => simp only [h9] at h; cases h

theorem toText_fromString_length_le (s : String) :
    (CircuitString.toText (CircuitString.fromString s)).length ≤ s.data.length := by
  show (((CircuitString.fromString s).filter (fun v => v != 0)).map
    Char.ofNat).length ≤ s.data.length
  rw [List.length_map]
  unfold CircuitString.fromString
  rw [List.filter_append, filter_ne_zero_replicate, List.append_nil]
  calc ((s.data.map Char.toNat).filter (fun v => v != 0)).length
      ≤ (s.data.map Char.toNat).length := List.length_filter_le _ _
    _ = s.data.length := List.length_map _ _

theorem plainText_take (s : String) (hp : plainText s) (n : Nat) :
    plainText ⟨s.data.take n⟩ := by
  intro ch hch
  exact hp ch (List.take_subset n s.data hch)

theorem fieldList_ok_parses : ∀ {l : List String} {vs : List Nat},
    fieldList l = .ok vs → ∀ t ∈ l, ∃ v, fieldOfString t = some v := by
  intro l
  induction l with
  | nil => intro vs _ t ht; cases ht
  | cons u rest ih =>
    intro vs h t ht
    simp only [fieldList] at h
    cases hf : fieldOfString u with
    | none => rw [hf] at h; cases h
    | some w =>
      rw [hf] at h
      cases hrest : fieldList rest with
      | error e => rw [hrest] at h; cases h
      | ok ws =>
        rcases List.mem_cons.mp ht with h1 | h1
        · exact ⟨w, h1 ▸ hf⟩
        · exact ih hrest t h1

/-! ## The claims -/

/-- C1: for every argument `params`, the exported factory `Community(params)`
throws (a `TypeError`) and never returns a Community instance: the factory
evaluates `new _Community_()` with no argument, whose constructor calls
`this.fromJSON(undefined)`, which dereferences `json.uid`; the factory's own
`.fromJSON(params)` call is never reached. -/
theorem c1_factory_always_throws (params : CommunityJson) :
    Community params = .error .typeError := rfl

/-- C6: for every Community and every sponge function, `hash()` is the sponge
applied to the single ordered sequence obtained by flattening uid, accountId,
fullName, description, state, then approvedUTC, createdUTC, updatedUTC, then
the admins, validators, auditors and plans lists, in exactly this declared
order. -/
theorem c6_hash_declared_order (c : _Community_) (poseidon : List Nat → Nat) :
    c.hash poseidon = poseidon (declaredFieldOrder c) := by
  simp [_Community_.hash, declaredFieldOrder, List.append_assoc]

/-- C3: for every input JSON accepted by `fromJSON`, the stored `updatedUTC`
is whatever the instance already held (the default `Field(0)` on a fresh
instance) — the input's `updatedUTC` is never stored there — and when
`json.updatedUTC` is present its parsed value lands in `createdUTC`,
overwriting the value parsed from `json.createdUTC`. -/
theorem c3_updatedUTC_never_stored (self : _Community_) (j : CommunityJson)
    (c : _Community_) (h : self.fromJSON (some j) = .ok c) :
    c.updatedUTC = self.updatedUTC ∧
      (∀ s v, j.updatedUTC = some s → fieldOfString s = some v →
        c.createdUTC = v) := by
  rcases (fromJSON_some_ok_iff self j c).mp h with
    ⟨uid, k, ap, cr0, cr, ad, vl, au, pl, h1, h2, h3, h4, h5, h6, h7, h8, h9, rfl⟩
  refine ⟨rfl, ?_⟩
  intro s v hs hv
  rw [hs] at h5
  simp only [asField, hv] at h5
  exact (Except.ok.inj h5).symm

/-- Witness for C3 at the concrete input `{uid: "1", updatedUTC: "7"}`. -/
theorem c3_witness :
    c3Out.updatedUTC = communityInit.updatedUTC ∧ c3Out.createdUTC = 7 :=
  ⟨(c3_updatedUTC_never_stored communityInit c3Json c3Out (by rfl)).1,
   (c3_updatedUTC_never_stored communityInit c3Json c3Out (by rfl)).2
     "7" 7 rfl (by rfl)⟩

/-- C4: for every valid JSON input containing only a `uid`, construction
yields a Community whose non-uid fields equal the declared defaults —
accountId the empty public key, fullName `"?"`, description `""`, state
`"INITIAL"`, approvedUTC, createdUTC and updatedUTC all `Field(0)`, and the
four identifier lists empty — and the omitted accountId appears as the empty
key both in the instance and in its `toJSON` form. -/
theorem c4_only_uid_defaults (s : String) (v : Nat)
    (h : fieldOfString s = some v) :
    new_Community_ (some { uid := s }) = .ok (onlyUidCommunity v) ∧
      (_Community_.toJSON (onlyUidCommunity v)).accountId =
        PublicKey.toBase58 PublicKey.empty := by
  constructor
  · simp only [new_Community_, _Community_.fromJSON, h, asPublicKey, asField,
      asArray, asCircuitString, communityInit, onlyUidCommunity, Option.getD]
  · rfl

/-- Witness for C4 at the concrete input `{uid: "1"}`. -/
theorem c4_witness :
    new_Community_ (some { uid := "1" }) = .ok (onlyUidCommunity 1) ∧
      (_Community_.toJSON (onlyUidCommunity 1)).accountId =
        PublicKey.toBase58 PublicKey.empty :=
  c4_only_uid_defaults "1" 1 (by rfl)

/-- C5: any input JSON with a malformed `uid`, a malformed base58
`accountId`, a malformed numeric timestamp string, or an identifier list
containing a non-field-encodable entry makes `fromJSON` fail by propagating
the underlying parse failure — no default is substituted and no partial or
successful object is returned. -/
theorem c5_malformed_input_fails (self : _Community_) (j : CommunityJson)
    (h : fieldOfString j.uid = none ∨
      (∃ s, j.accountId = some s ∧ PublicKey.fromBase58 s = none) ∨
      (∃ s, j.approvedUTC = some s ∧ fieldOfString s = none) ∨
      (∃ s, j.createdUTC = some s ∧ fieldOfString s = none) ∨
      (∃ s, j.updatedUTC = some s ∧ fieldOfString s = none) ∨
      (∃ l, j.admins = some l ∧ ∃ t ∈ l, fieldOfString t = none) ∨
      (∃ l, j.validators = some l ∧ ∃ t ∈ l, fieldOfString t = none) ∨
      (∃ l, j.auditors = some l ∧ ∃ t ∈ l, fieldOfString t = none) ∨
      (∃ l, j.plans = some l ∧ ∃ t ∈ l, fieldOfString t = none)) :
    self.fromJSON (some j) = .error .parseError := by
  cases hr : self.fromJSON (some j) with
  | error e => rw [fromJSON_some_err hr]
  | ok c =>
    exfalso
    rcases (fromJSON_some_ok_iff self j c).mp hr with
      ⟨uid, k, ap, cr0, cr, ad, vl, au, pl, h1, h2, h3, h4, h5, h6, h7, h8, h9, _⟩
    rcases h with h | ⟨s, hs, hp⟩ | ⟨s, hs, hp⟩ | ⟨s, hs, hp⟩ | ⟨s, hs, hp⟩ |
      ⟨l, hl, t, ht, hp⟩ | ⟨l, hl, t, ht, hp⟩ | ⟨l, hl, t, ht, hp⟩ |
      ⟨l, hl, t, ht, hp⟩
    · rw [h] at h1; cases h1
    · simp [asPublicKey, hs, hp] at h2
    · simp [asField, hs, hp] at h3
    · simp [asField, hs, hp] at h4
    · simp [asField, hs, hp] at h5
    · rw [hl] at h6
      rcases fieldList_ok_parses h6 t ht with ⟨v, hv⟩
      rw [hp] at hv; cases hv
    · rw [hl] at h7
      rcases fieldList_ok_parses h7 t ht with ⟨v, hv⟩
      rw [hp] at hv; cases hv
    · rw [hl] at h8
      rcases fieldList_ok_parses h8 t ht with ⟨v, hv⟩
      rw [hp] at hv; cases hv
    · rw [hl] at h9
      rcases fieldList_ok_parses h9 t ht with ⟨v, hv⟩
      rw [hp] at hv; cases hv

/-- Witness for C5: the spec's own example `{uid: "1", accountId:
"not-base58"}` fails construction. -/
theorem c5_witness :
    communityInit.fromJSON
      (some { uid := "1", accountId := some "not-base58" }) =
      .error .parseError :=
  c5_malformed_input_fails communityInit _
    (Or.inr (Or.inl ⟨"not-base58", rfl, by decide⟩))

/-- C10: for every defined input string, `asCircuitString` stores the
conversion of `substring(0, CircuitString.maxLength - 1)`, so at most
`maxLength - 1` characters are kept; a (null-free) string of exactly the
framework's maximum length loses its final character — one character more
truncation than the stated maximum requires. -/
theorem c10_truncation_off_by_one (s : String) (d : CircuitString)
    (hp : plainText s) (hl : s.data.length = CircuitString.maxLength) :
    asCircuitString (some s) d =
      CircuitString.fromString ⟨s.data.take (CircuitString.maxLength - 1)⟩ ∧
    CircuitString.toText (asCircuitString (some s) d) =
      ⟨s.data.take (CircuitString.maxLength - 1)⟩ ∧
    CircuitString.toText (asCircuitString (some s) d) ≠ s ∧
    (CircuitString.toText (asCircuitString (some s) d)).length =
      CircuitString.maxLength - 1 := by
  have htake : (s.data.take (CircuitString.maxLength - 1)).length =
      CircuitString.maxLength - 1 := by
    rw [List.length_take, hl]; decide
  have htext : CircuitString.toText (asCircuitString (some s) d) =
      ⟨s.data.take (CircuitString.maxLength - 1)⟩ :=
    toText_fromString _ (plainText_take s hp _)
  refine ⟨rfl, htext, ?_, ?_⟩
  · intro he
    rw [htext] at he
    have hlen := congrArg (fun t => t.data.length) he
    simp only [htake] at hlen
    rw [hl] at hlen
    exact absurd hlen (by decide)
  · rw [htext]
    show (s.data.take (CircuitString.maxLength - 1)).length = _
    exact htake

/-- Witness for C10 at a concrete 128-character string. -/
theorem c10_witness :
    CircuitString.toText
        (asCircuitString (some ⟨List.replicate 128 'a'⟩)
          (CircuitString.fromString "")) ≠ ⟨List.replicate 128 'a'⟩ ∧
    (CircuitString.toText
        (asCircuitString (some ⟨List.replicate 128 'a'⟩)
          (CircuitString.fromString ""))).length =
      CircuitString.maxLength - 1 :=
  ⟨(c10_truncation_off_by_one ⟨List.replicate 128 'a'⟩
      (CircuitString.fromString "") (by decide) (by decide)).2.2.1,
   (c10_truncation_off_by_one ⟨List.replicate 128 'a'⟩
      (CircuitString.fromString "") (by decide) (by decide)).2.2.2⟩

/-- C8: after every successful construction, the text of each text field
never exceeds the framework's maximum string-field length — longer input is
silently truncated — and oversized text is never treated as an error: with
any text fields substituted into an otherwise accepted input, construction
still succeeds. -/
theorem c8_text_length_invariant (j : CommunityJson) (c : _Community_)
    (h : new_Community_ (some j) = .ok c) :
    (CircuitString.toText c.fullName).length ≤ CircuitString.maxLength ∧
    (CircuitString.toText c.description).length ≤ CircuitString.maxLength ∧
    (CircuitString.toText c.state).length ≤ CircuitString.maxLength ∧
    ∀ s : String, ∃ c', new_Community_
      (some { j with
              fullName := some s,
              description := some s,
              state := some s }) = .ok c' := by
  have hbound : ∀ (so : Option String) (d : CircuitString),
      (CircuitString.toText d).length ≤ CircuitString.maxLength →
      (CircuitString.toText (asCircuitString so d)).length ≤
        CircuitString.maxLength := by
    intro so d hd
    cases so with
    | none => exact hd
    | some str =>
      calc (CircuitString.toText (asCircuitString (some str) d)).length
          ≤ (str.data.take (CircuitString.maxLength - 1)).length :=
            toText_fromString_length_le _
        _ ≤ CircuitString.maxLength - 1 := by
            rw [List.length_take]; exact Nat.min_le_left _ _
        _ ≤ CircuitString.maxLength := Nat.sub_le _ _
  rcases (fromJSON_some_ok_iff communityInit j c).mp h with
    ⟨uid, k, ap, cr0, cr, ad, vl, au, pl, h1, h2, h3, h4, h5, h6, h7, h8, h9, rfl⟩
  refine ⟨hbound _ _ (by decide), hbound _ _ (by decide), hbound _ _ (by decide),
    fun s => ⟨_, (fromJSON_some_ok_iff communityInit _ _).mpr
      ⟨uid, k, ap, cr0, cr, ad, vl, au, pl, h1, h2, h3, h4, h5, h6, h7, h8, h9,
        rfl⟩⟩⟩

/-- Witness for C8 at the concrete input `{uid: "1", updatedUTC: "7"}`. -/
theorem c8_witness :
    (CircuitString.toText c3Out.fullName).length ≤ CircuitString.maxLength :=
  (c8_text_length_invariant c3Json c3Out (by rfl)).1

theorem hash_eq_poseidon_declared (c : _Community_)
    (poseidon : List Nat → Nat) :
    c.hash poseidon = poseidon (declaredFieldOrder c) := by
  simp [_Community_.hash, declaredFieldOrder, List.append_assoc]

theorem cond_one_zero_inj : ∀ a b : Bool,
    (cond a 1 0 : Nat) = cond b 1 0 → a = b := by decide

/-- C9: the spec's example `{uid: "1", admins: ["2","3"]}`: `admins`
round-trips through `fromJSON` then `toJSON` to `["2","3"]` in the same
order; constructing with the reversed list `["3","2"]` changes `hash()` (for
every collision-free sponge — the two Poseidon input sequences differ). -/
theorem c9_admins_order_roundtrip (poseidon : List Nat → Nat)
    (hinj : Function.Injective poseidon) :
    new_Community_ (some c9JsonA) = .ok c9OutA ∧
    new_Community_ (some c9JsonB) = .ok c9OutB ∧
    (_Community_.toJSON c9OutA).admins = ["2", "3"] ∧
    (_Community_.toJSON c9OutB).admins = ["3", "2"] ∧
    c9OutA.hash poseidon ≠ c9OutB.hash poseidon := by
  refine ⟨by rfl, by rfl, by rfl, by rfl, ?_⟩
  intro he
  rw [hash_eq_poseidon_declared, hash_eq_poseidon_declared] at he
  exact absurd (hinj he) (by decide)

/-- Witness for C9 with the sponge instantiated at an injective encoding of
field-element lists. -/
theorem c9_witness :
    c9OutA.hash Encodable.encode ≠ c9OutB.hash Encodable.encode :=
  (c9_admins_order_roundtrip Encodable.encode
    Encodable.encode_injective).2.2.2.2

/-- C7: `fromJSON` is deterministic — the same JSON always yields the same
field values, hence equal hashes — and `hash()` is a pure function of the
field values that changes whenever any single field changes (including
replacing one list by a reordering of it), for every collision-free sponge:
changing one field changes the flattened Poseidon input sequence. -/
theorem c7_determinism_and_sensitivity (poseidon : List Nat → Nat)
    (hinj : Function.Injective poseidon) :
    (∀ (self : _Community_) (json : Option CommunityJson) (c c' : _Community_),
      self.fromJSON json = .ok c → self.fromJSON json = .ok c' →
        c = c' ∧ c.hash poseidon = c'.hash poseidon) ∧
    (∀ (c : _Community_) (v : Nat), v ≠ c.uid →
      _Community_.hash { c with uid := v } poseidon ≠ c.hash poseidon) ∧
    (∀ (c : _Community_) (k : PublicKey), k ≠ c.accountId →
      _Community_.hash { c with accountId := k } poseidon ≠ c.hash poseidon) ∧
    (∀ (c : _Community_) (t : CircuitString), t ≠ c.fullName →
      _Community_.hash { c with fullName := t } poseidon ≠ c.hash poseidon) ∧
    (∀ (c : _Community_) (t : CircuitString), t ≠ c.description →
      _Community_.hash { c with description := t } poseidon ≠ c.hash poseidon) ∧
    (∀ (c : _Community_) (t : CircuitString), t ≠ c.state →
      _Community_.hash { c with state := t } poseidon ≠ c.hash poseidon) ∧
    (∀ (c : _Community_) (v : Nat), v ≠ c.approvedUTC →
      _Community_.hash { c with approvedUTC := v } poseidon ≠ c.hash poseidon) ∧
    (∀ (c : _Community_) (v : Nat), v ≠ c.createdUTC →
      _Community_.hash { c with createdUTC := v } poseidon ≠ c.hash poseidon) ∧
    (∀ (c : _Community_) (v : Nat), v ≠ c.updatedUTC →
      _Community_.hash { c with updatedUTC := v } poseidon ≠ c.hash poseidon) ∧
    (∀ (c : _Community_) (l : List Nat), l ≠ c.admins →
      _Community_.hash { c with admins := l } poseidon ≠ c.hash poseidon) ∧
    (∀ (c : _Community_) (l : List Nat), l ≠ c.validators →
      _Community_.hash { c with validators := l } poseidon ≠ c.hash poseidon) ∧
    (∀ (c : _Community_) (l : List Nat), l ≠ c.auditors →
      _Community_.hash { c with auditors := l } poseidon ≠ c.hash poseidon) ∧
    (∀ (c : _Community_) (l : List Nat), l ≠ c.plans →
      _Community_.hash { c with plans := l } poseidon ≠ c.hash poseidon) := by
  have key : ∀ c c' : _Community_, c.hash poseidon = c'.hash poseidon →
      declaredFieldOrder c = declaredFieldOrder c' := by
    intro c c' he
    rw [hash_eq_poseidon_declared, hash_eq_poseidon_declared] at he
    exact hinj he
  refine ⟨?_, ?_, ?_, ?_, ?_, ?_, ?_, ?_, ?_, ?_, ?_, ?_, ?_⟩
  · intro self json c c' h h'
    rw [h] at h'
    have hcc := Except.ok.inj h'
    exact ⟨hcc, by rw [hcc]⟩
  · intro c v hne he
    have hd := key _ _ he
    simp only [declaredFieldOrder, fieldToFields, PublicKey.toFields,
      CircuitString.toFields, List.append_assoc, List.cons_append,
      List.singleton_append, List.nil_append] at hd
    injection hd with h1 _
    exact hne h1
  · intro c k hne he
    have hd := key _ _ he
    simp only [declaredFieldOrder, fieldToFields, PublicKey.toFields,
      CircuitString.toFields, List.append_assoc, List.cons_append,
      List.singleton_append, List.nil_append] at hd
    injection hd with _ hd
    injection hd with h2 hd
    injection hd with h3 _
    apply hne
    cases k with
    | mk kx kb =>
      have h2' : kx = c.accountId.x := h2
      have h3' : kb = c.accountId.po := cond_one_zero_inj _ _ h3
      rw [h2', h3']
  · intro c t hne he
    have hd := key _ _ he
    simp only [declaredFieldOrder, fieldToFields, PublicKey.toFields,
      CircuitString.toFields, List.append_assoc, List.cons_append,
      List.singleton_append, List.nil_append] at hd
    injection hd with _ hd
    injection hd with _ hd
    injection hd with _ hd
    exact hne (List.append_cancel_right hd)
  · intro c t hne he
    have hd := key _ _ he
    simp only [declaredFieldOrder, fieldToFields, PublicKey.toFields,
      CircuitString.toFields, List.append_assoc, List.cons_append,
      List.singleton_append, List.nil_append] at hd
    injection hd with _ hd
    injection hd with _ hd
    injection hd with _ hd
    exact hne (List.append_cancel_right (List.append_cancel_left hd))
  · intro c t hne he
    have hd := key _ _ he
    simp only [declaredFieldOrder, fieldToFields, PublicKey.toFields,
      CircuitString.toFields, List.append_assoc, List.cons_append,
      List.singleton_append, List.nil_append] at hd
    injection hd with _ hd
    injection hd with _ hd
    injection hd with _ hd
    exact hne (List.append_cancel_right
      (List.append_cancel_left (List.append_cancel_left hd)))
  · intro c v hne he
    have hd := key _ _ he
    simp only [declaredFieldOrder, fieldToFields, PublicKey.toFields,
      CircuitString.toFields, List.append_assoc, List.cons_append,
      List.singleton_append, List.nil_append] at hd
    injection hd with _ hd
    injection hd with _ hd
    injection hd with _ hd
    have hd := List.append_cancel_left
      (List.append_cancel_left (List.append_cancel_left hd))
    injection hd with h1 _
    exact hne h1
  · intro c v hne he
    have hd := key _ _ he
    simp only [declaredFieldOrder, fieldToFields, PublicKey.toFields,
      CircuitString.toFields, List.append_assoc, List.cons_append,
      List.singleton_append, List.nil_append] at hd
    injection hd with _ hd
    injection hd with _ hd
    injection hd with _ hd
    have hd := List.append_cancel_left
      (List.append_cancel_left (List.append_cancel_left hd))
    injection hd with _ hd
    injection hd with h1 _
    exact hne h1
  · intro c v hne he
    have hd := key _ _ he
    simp only [declaredFieldOrder, fieldToFields, PublicKey.toFields,
      CircuitString.toFields, List.append_assoc, List.cons_append,
      List.singleton_append, List.nil_append] at hd
    injection hd with _ hd
    injection hd with _ hd
    injection hd with _ hd
    have hd := List.append_cancel_left
      (List.append_cancel_left (List.append_cancel_left hd))
    injection hd with _ hd
    injection hd with _ hd
    injection hd with h1 _
    exact hne h1
  · intro c l hne he
    have hd := key _ _ he
    simp only [declaredFieldOrder, fieldToFields, PublicKey.toFields,
      CircuitString.toFields, List.append_assoc, List.cons_append,
      List.singleton_append, List.nil_append] at hd
    injection hd with _ hd
    injection hd with _ hd
    injection hd with _ hd
    have hd := List.append_cancel_left
      (List.append_cancel_left (List.append_cancel_left hd))
    injection hd with _ hd
    injection hd with _ hd
    injection hd with _ hd
    exact hne (List.append_cancel_right hd)
  · intro c l hne he
    have hd := key _ _ he
    simp only [declaredFieldOrder, fieldToFields, PublicKey.toFields,
      CircuitString.toFields, List.append_assoc, List.cons_append,
      List.singleton_append, List.nil_append] at hd
    injection hd with _ hd
    injection hd with _ hd
    injection hd with _ hd
    have hd := List.append_cancel_left
      (List.append_cancel_left (List.append_cancel_left hd))
    injection hd with _ hd
    injection hd with _ hd
    injection hd with _ hd
    exact hne (List.append_cancel_right (List.append_cancel_left hd))
  · intro c l hne he
    have hd := key _ _ he
    simp only [declaredFieldOrder, fieldToFields, PublicKey.toFields,
      CircuitString.toFields, List.append_assoc, List.cons_append,
      List.singleton_append, List.nil_append] at hd
    injection hd with _ hd
    injection hd with _ hd
    injection hd with _ hd
    have hd := List.append_cancel_left
      (List.append_cancel_left (List.append_cancel_left hd))
    injection hd with _ hd
    injection hd with _ hd
    injection hd with _ hd
    exact hne (List.append_cancel_right
      (List.append_cancel_left (List.append_cancel_left hd)))
  · intro c l hne he
    have hd := key _ _ he
    simp only [declaredFieldOrder, fieldToFields, PublicKey.toFields,
      CircuitString.toFields, List.append_assoc, List.cons_append,
      List.singleton_append, List.nil_append] at hd
    injection hd with _ hd
    injection hd with _ hd
    injection hd with _ hd
    have hd := List.append_cancel_left
      (List.append_cancel_left (List.append_cancel_left hd))
    injection hd with _ hd
    injection hd with _ hd
    injection hd with _ hd
    exact hne (List.append_cancel_left
      (List.append_cancel_left (List.append_cancel_left hd)))

/-- Witness for C7: changing the uid of the fresh instance changes the hash
under an injective encoding taken as the sponge. -/
theorem c7_witness :
    _Community_.hash { communityInit with uid := 1 } Encodable.encode ≠
      communityInit.hash Encodable.encode :=
  (c7_determinism_and_sensitivity Encodable.encode
    Encodable.encode_injective).2.1 communityInit 1 (by decide)

theorem string_eta : ∀ s : String, (⟨s.data⟩ : String) = s :=
  fun ⟨_⟩ => rfl

theorem asCircuitString_shape (so : Option String) (d : CircuitString)
    (hso : ∀ s, so = some s → plainText s)
    (hd : ∃ s0, plainText s0 ∧ s0.data.length ≤ CircuitString.maxLength - 1 ∧
      d = CircuitString.fromString s0) :
    ∃ s1, plainText s1 ∧ s1.data.length ≤ CircuitString.maxLength - 1 ∧
      asCircuitString so d = CircuitString.fromString s1 := by
  cases so with
  | none => exact hd
  | some s =>
    refine ⟨⟨s.data.take (CircuitString.maxLength - 1)⟩,
      plainText_take s (hso s rfl) _, ?_, rfl⟩
    show (s.data.take (CircuitString.maxLength - 1)).length ≤ _
    rw [List.length_take]
    exact Nat.min_le_left _ _

theorem asCircuitString_toText_roundtrip (s : String) (hp : plainText s)
    (hl : s.data.length ≤ CircuitString.maxLength - 1) (d : CircuitString) :
    asCircuitString (some (CircuitString.toText (CircuitString.fromString s)))
      d = CircuitString.fromString s := by
  rw [toText_fromString s hp]
  show CircuitString.fromString ⟨s.data.take (CircuitString.maxLength - 1)⟩ =
    CircuitString.fromString s
  rw [List.take_of_length_le hl, string_eta]

theorem new_bounds (j : CommunityJson) (c : _Community_)
    (h : new_Community_ (some j) = .ok c) :
    c.uid < pPallas ∧ c.approvedUTC < pPallas ∧ c.createdUTC < pPallas ∧
    c.updatedUTC = 0 ∧
    (∀ v ∈ c.admins, v < pPallas) ∧ (∀ v ∈ c.validators, v < pPallas) ∧
    (∀ v ∈ c.auditors, v < pPallas) ∧ (∀ v ∈ c.plans, v < pPallas) := by
  rcases (fromJSON_some_ok_iff communityInit j c).mp h with
    ⟨uid, k, ap, cr0, cr, ad, vl, au, pl, h1, h2, h3, h4, h5, h6, h7, h8, h9, rfl⟩
  have hcr0 : cr0 < pPallas :=
    asField_ok_lt (show communityInit.createdUTC < pPallas by decide) h4
  refine ⟨fieldOfString_lt h1,
    asField_ok_lt (show communityInit.approvedUTC < pPallas by decide) h3,
    asField_ok_lt hcr0 h5, rfl,
    asArray_ok_lt ?_ h6, asArray_ok_lt ?_ h7, asArray_ok_lt ?_ h8,
    asArray_ok_lt ?_ h9⟩ <;>
    · intro v hv
      simp [communityInit] at hv

/-- Counterexample to C2 as stated: for the well-formed input
`{uid: "1", fullName: "ab", createdUTC: "5", updatedUTC: "7", admins: ["2"]}`
— all fields canonical and far below the maximum text length — the
round-tripped `createdUTC` is `"7"` (the input's `updatedUTC` value) and the
round-tripped `updatedUTC` is `"0"`, not the input's `"5"` and `"7"`. -/
theorem c2_roundtrip_counterexample :
    (new_Community_ (some c2Json)).map
      (fun c => ((_Community_.toJSON c).createdUTC,
        (_Community_.toJSON c).updatedUTC)) = .ok ("7", "0") ∧
    (("7", "0") : String × String) ≠ ("5", "7") :=
  ⟨by rfl, by decide⟩

/-- C2 (amended): round-tripping holds for every supported field except the
two timestamps hit by the `updatedUTC` store defect. For a constructed
Community: `uid`, `accountId`, `approvedUTC` and the four identifier lists
round-trip exactly when canonical; the text fields round-trip to the
`maxLength - 1` truncated prefix (hence exactly when within `maxLength - 1`
and null-free); `toJSON(...).createdUTC` echoes `updatedUTC`'s value when
present (else `createdUTC`'s); `toJSON(...).updatedUTC` is always the
rendering of the untouched default `0`; and re-reading `toJSON(c)` with
`fromJSON` reproduces `c` except that `createdUTC` becomes `c.updatedUTC`
(truncation is idempotent, so text is unchanged on re-application). -/
theorem c2_roundtrip_amended (j : CommunityJson) (c : _Community_)
    (h : new_Community_ (some j) = .ok c)
    (hf : ∀ s, j.fullName = some s → plainText s)
    (hdsc : ∀ s, j.description = some s → plainText s)
    (hst : ∀ s, j.state = some s → plainText s) :
    (canonFieldStr j.uid → (_Community_.toJSON c).uid = j.uid) ∧
    (∀ a, j.accountId = some a → canonKeyStr a →
      (_Community_.toJSON c).accountId = a) ∧
    (∀ s, j.fullName = some s → (_Community_.toJSON c).fullName =
      ⟨s.data.take (CircuitString.maxLength - 1)⟩) ∧
    (∀ s, j.fullName = some s → s.data.length ≤ CircuitString.maxLength - 1 →
      (_Community_.toJSON c).fullName = s) ∧
    (∀ s, j.description = some s → (_Community_.toJSON c).description =
      ⟨s.data.take (CircuitString.maxLength - 1)⟩) ∧
    (∀ s, j.description = some s →
      s.data.length ≤ CircuitString.maxLength - 1 →
      (_Community_.toJSON c).description = s) ∧
    (∀ s, j.state = some s → (_Community_.toJSON c).state =
      ⟨s.data.take (CircuitString.maxLength - 1)⟩) ∧
    (∀ s, j.state = some s → s.data.length ≤ CircuitString.maxLength - 1 →
      (_Community_.toJSON c).state = s) ∧
    (∀ s, j.approvedUTC = some s → canonFieldStr s →
      (_Community_.toJSON c).approvedUTC = s) ∧
    (j.updatedUTC = none → ∀ s, j.createdUTC = some s → canonFieldStr s →
      (_Community_.toJSON c).createdUTC = s) ∧
    (∀ s, j.updatedUTC = some s → canonFieldStr s →
      (_Community_.toJSON c).createdUTC = s) ∧
    (_Community_.toJSON c).updatedUTC = "0" ∧
    (∀ l, j.admins = some l → (∀ t ∈ l, canonFieldStr t) →
      (_Community_.toJSON c).admins = l) ∧
    (∀ l, j.validators = some l → (∀ t ∈ l, canonFieldStr t) →
      (_Community_.toJSON c).validators = l) ∧
    (∀ l, j.auditors = some l → (∀ t ∈ l, canonFieldStr t) →
      (_Community_.toJSON c).auditors = l) ∧
    (∀ l, j.plans = some l → (∀ t ∈ l, canonFieldStr t) →
      (_Community_.toJSON c).plans = l) ∧
    new_Community_ (some (CommunityJsonOut.toInput (_Community_.toJSON c))) =
      .ok { c with createdUTC := c.updatedUTC } := by
  rcases (fromJSON_some_ok_iff communityInit j c).mp h with
    ⟨uid, k, ap, cr0, cr, ad, vl, au, pl, h1, h2, h3, h4, h5, h6, h7, h8, h9, rfl⟩
  refine ⟨?_, ?_, ?_, ?_, ?_, ?_, ?_, ?_, ?_, ?_, ?_, ?_, ?_, ?_, ?_, ?_, ?_⟩
  · rintro ⟨n, hn, hjn⟩
    rw [hjn, fieldOfString_fieldToString n hn] at h1
    cases h1
    simp only [_Community_.toJSON]
    exact hjn.symm
  · rintro a ha ⟨pk, rfl⟩
    rw [ha] at h2
    simp only [asPublicKey, PublicKey.fromBase58_toBase58] at h2
    cases h2
    simp only [_Community_.toJSON]
  · intro s hs
    simp only [_Community_.toJSON, hs, asCircuitString]
    exact toText_fromString _ (plainText_take s (hf s hs) _)
  · intro s hs hl
    simp only [_Community_.toJSON, hs, asCircuitString]
    rw [toText_fromString _ (plainText_take s (hf s hs) _)]
    show (⟨s.data.take (CircuitString.maxLength - 1)⟩ : String) = s
    rw [List.take_of_length_le hl, string_eta]
  · intro s hs
    simp only [_Community_.toJSON, hs, asCircuitString]
    exact toText_fromString _ (plainText_take s (hdsc s hs) _)
  · intro s hs hl
    simp only [_Community_.toJSON, hs, asCircuitString]
    rw [toText_fromString _ (plainText_take s (hdsc s hs) _)]
    show (⟨s.data.take (CircuitString.maxLength - 1)⟩ : String) = s
    rw [List.take_of_length_le hl, string_eta]
  · intro s hs
    simp only [_Community_.toJSON, hs, asCircuitString]
    exact toText_fromString _ (plainText_take s (hst s hs) _)
  · intro s hs hl
    simp only [_Community_.toJSON, hs, asCircuitString]
    rw [toText_fromString _ (plainText_take s (hst s hs) _)]
    show (⟨s.data.take (CircuitString.maxLength - 1)⟩ : String) = s
    rw [List.take_of_length_le hl, string_eta]
  · rintro s hs ⟨n, hn, rfl⟩
    rw [hs] at h3
    simp only [asField, fieldOfString_fieldToString n hn] at h3
    cases h3
    simp only [_Community_.toJSON, UTCDateTime.toText, UTCDateTime.fromField]
  · rintro hu s hs ⟨n, hn, rfl⟩
    rw [hu] at h5
    simp only [asField] at h5
    cases h5
    rw [hs] at h4
    simp only [asField, fieldOfString_fieldToString n hn] at h4
    cases h4
    simp only [_Community_.toJSON, UTCDateTime.toText, UTCDateTime.fromField]
  · rintro s hs ⟨n, hn, rfl⟩
    rw [hs] at h5
    simp only [asField, fieldOfString_fieldToString n hn] at h5
    cases h5
    simp only [_Community_.toJSON, UTCDateTime.toText, UTCDateTime.fromField]
  · simp only [_Community_.toJSON, UTCDateTime.toText, UTCDateTime.fromField]
    decide
  · intro l hl hcanon
    rw [hl] at h6
    simp only [_Community_.toJSON]
    exact fieldList_canon h6 hcanon
  · intro l hl hcanon
    rw [hl] at h7
    simp only [_Community_.toJSON]
    exact fieldList_canon h7 hcanon
  · intro l hl hcanon
    rw [hl] at h8
    simp only [_Community_.toJSON]
    exact fieldList_canon h8 hcanon
  · intro l hl hcanon
    rw [hl] at h9
    simp only [_Community_.toJSON]
    exact fieldList_canon h9 hcanon
  · have huid : uid < pPallas := fieldOfString_lt h1
    have hap : ap < pPallas :=
      asField_ok_lt (show communityInit.approvedUTC < pPallas by decide) h3
    have hcr0 : cr0 < pPallas :=
      asField_ok_lt (show communityInit.createdUTC < pPallas by decide) h4
    have hcr : cr < pPallas := asField_ok_lt hcr0 h5
    have had : ∀ v ∈ ad, v < pPallas :=
      asArray_ok_lt (by intro v hv; simp [communityInit] at hv) h6
    have hvl : ∀ v ∈ vl, v < pPallas :=
      asArray_ok_lt (by intro v hv; simp [communityInit] at hv) h7
    have hau : ∀ v ∈ au, v < pPallas :=
      asArray_ok_lt (by intro v hv; simp [communityInit] at hv) h8
    have hpl : ∀ v ∈ pl, v < pPallas :=
      asArray_ok_lt (by intro v hv; simp [communityInit] at hv) h9
    obtain ⟨s1, hp1, hl1, he1⟩ := asCircuitString_shape j.fullName
      communityInit.fullName hf ⟨"?", by decide, by decide, rfl⟩
    obtain ⟨s2, hp2, hl2, he2⟩ := asCircuitString_shape j.description
      communityInit.description hdsc ⟨"", by decide, by decide, rfl⟩
    obtain ⟨s3, hp3, hl3, he3⟩ := asCircuitString_shape j.state
      communityInit.state hst ⟨"INITIAL", by decide, by decide, rfl⟩
    refine (fromJSON_some_ok_iff communityInit _ _).mpr
      ⟨uid, k, ap, cr, communityInit.updatedUTC, ad, vl, au, pl,
        ?_, ?_, ?_, ?_, ?_, ?_, ?_, ?_, ?_, ?_⟩
    · simp only [CommunityJsonOut.toInput, _Community_.toJSON]
      exact fieldOfString_fieldToString uid huid
    · simp only [CommunityJsonOut.toInput, _Community_.toJSON, asPublicKey,
        PublicKey.fromBase58_toBase58]
    · simp only [CommunityJsonOut.toInput, _Community_.toJSON, asField,
        UTCDateTime.toText, UTCDateTime.fromField,
        fieldOfString_fieldToString ap hap]
    · simp only [CommunityJsonOut.toInput, _Community_.toJSON, asField,
        UTCDateTime.toText, UTCDateTime.fromField,
        fieldOfString_fieldToString cr hcr]
    · simp only [CommunityJsonOut.toInput, _Community_.toJSON, asField,
        UTCDateTime.toText, UTCDateTime.fromField,
        fieldOfString_fieldToString communityInit.updatedUTC (by decide)]
    · simp only [CommunityJsonOut.toInput, _Community_.toJSON, asArray]
      exact fieldList_map_render had
    · simp only [CommunityJsonOut.toInput, _Community_.toJSON, asArray]
      exact fieldList_map_render hvl
    · simp only [CommunityJsonOut.toInput, _Community_.toJSON, asArray]
      exact fieldList_map_render hau
    · simp only [CommunityJsonOut.toInput, _Community_.toJSON, asArray]
      exact fieldList_map_render hpl
    · simp only [CommunityJsonOut.toInput, _Community_.toJSON]
      rw [he1, he2, he3,
        asCircuitString_toText_roundtrip s1 hp1 hl1,
        asCircuitString_toText_roundtrip s2 hp2 hl2,
        asCircuitString_toText_roundtrip s3 hp3 hl3]

/-- Witness for C2's amended theorem at the concrete input
`{uid: "1", fullName: "ab", createdUTC: "5", updatedUTC: "7", admins: ["2"]}`. -/
theorem c2_witness :
    (_Community_.toJSON c2Out).createdUTC = "7" ∧
    (_Community_.toJSON c2Out).updatedUTC = "0" ∧
    new_Community_ (some (CommunityJsonOut.toInput (_Community_.toJSON c2Out)))
      = .ok { c2Out with createdUTC := c2Out.updatedUTC } := by
  have hmain := c2_roundtrip_amended c2Json c2Out (by rfl)
    (by intro s hs; cases hs; decide)
    (by intro s hs; cases hs)
    (by intro s hs; cases hs)
  exact ⟨hmain.2.2.2.2.2.2.2.2.2.2.1 "7" rfl ⟨7, by decide, by decide⟩,
    hmain.2.2.2.2.2.2.2.2.2.2.2.1,
    hmain.2.2.2.2.2.2.2.2.2.2.2.2.2.2.2.2⟩

end Socialcap
